import Mathlib

/-!
Verification of the `amrt` log-paragraph segmentation tool
(`src/amrt/__init__.py`) against its design specification.

The Python source is shallowly embedded:

* `Expression` mirrors the dataclass (desc, expression, known).
* `Expression.id` is the deterministic identity derived from the pattern
  source (`hashlib.md5(expression).hexdigest()` in the source); the hash is
  modelled by the pattern source string itself, which is likewise a
  deterministic, injective function of the pattern source and preserves the
  documented invariant that equal sources collide to one id.
* The host regular-expression facility (`re.compile` / `pattern.match`) is
  modelled by a `RegexEngine`: `compile` returns `none` exactly when the
  pattern source is syntactically invalid (Python raises `re.error`), and
  otherwise the match-at-start predicate that `pattern.match(s)` truthiness
  denotes.
* Fallible Python code (raised exceptions) becomes `Except PyError`.
* `split_text` becomes `splitText`, a structural recursion over the list of
  input lines threading the same state the Python loop mutates
  (`result`, `current_group`, `current_regexp`, `match_count`).
* `collections.defaultdict(int)` becomes an insertion-ordered association
  list: incrementing a missing key appends it with value 1 (Python inserts
  the default 0 then increments); looking up a missing key yields 0.
* `report` becomes `report`, returning the computed report data; the
  unguarded `count / total` raises `ZeroDivisionError` when `total == 0`,
  modelled by `Except.error PyError.zeroDivision` at the same program point.
  `sorted(expressions, key=..., reverse=True)` (Timsort, stable, descending)
  is modelled by `List.insertionSort` with the relation
  `fun a b => key b ≤ key a`, which is the unique stable descending sort.
-/

/-- Python exceptions that can escape the modelled code. -/
inductive PyError where
  /-- `re.error` raised while compiling the named pattern source. -/
  | regexError (source : String)
  /-- `AttributeError`: calling `should_exclude` on a `None` owner. -/
  | noneTypeNoAttr
  /-- `ZeroDivisionError` from `count / total` with `total == 0`. -/
  | zeroDivision
deriving DecidableEq, Repr

/-- The host regular-expression facility: `compile` models `re.compile`,
returning `none` for a syntactically invalid source and otherwise the
predicate `fun s => pattern.match(s) is not None`. -/
structure RegexEngine where
  compile : String → Option (String → Bool)

/-- One configured boundary rule, mirroring the `Expression` dataclass. -/
structure Expression where
  desc : String
  expression : String
  known : List String
deriving DecidableEq, Repr

/-- `Expression.id`: deterministic identity derived solely from the pattern
source (md5 hex digest in the source, modelled injectively by the source
string itself). -/
def Expression.id (e : Expression) : String := e.expression

/-- `p.data.isPrefixOf s.data`: does the literal `p` occur at the start of
`s`?  Used to give concrete `RegexEngine`s the semantics of `re.match` for
start-anchored literal patterns such as `"^ERROR"`. -/
def strStartsWithLit (p s : String) : Bool := p.data.isPrefixOf s.data

/-- `line.strip("\n")`: remove all leading and trailing newline characters. -/
def stripNL (s : String) : String :=
  ⟨((s.data.dropWhile (· == '\n')).reverse.dropWhile (· == '\n')).reverse⟩

/-- `sep.join(parts)` for Python strings. -/
def joinWith (sep : String) : List String → String
  | [] => ""
  | [x] => x
  | x :: y :: xs => x ++ sep ++ joinWith sep (y :: xs)

/-- `"\n".join(lines)`, the paragraph text of a group. -/
def joinLines (lines : List String) : String := joinWith "\n" lines

/-- `match_count[key] += 1` on a `defaultdict(int)`: insertion-ordered
association list, a missing key is inserted (default 0) and incremented. -/
def bumpCount (counts : List (String × Nat)) (key : String) :
    List (String × Nat) :=
  match counts with
  | [] => [(key, 1)]
  | (k, v) :: rest =>
    if k = key then (k, v + 1) :: rest else (k, v) :: bumpCount rest key

/-- `counter[key]` on a `defaultdict(int)`: 0 when the key is absent. -/
def lookupCount (counts : List (String × Nat)) (key : String) : Nat :=
  match counts with
  | [] => 0
  | (k, v) :: rest => if k = key then v else lookupCount rest key

/-- Does the counter hold an entry (a dict key) for `key`? -/
def hasKey (counts : List (String × Nat)) (key : String) : Bool :=
  counts.any (fun kv => kv.1 = key)

/-- `Expression.should_exclude(paragraph)`: compile every `known` pattern
(the source builds the whole `_exclude_patterns` list before matching; a bad
entry raises `re.error`), then test whether any matches at the start of the
paragraph text. -/
def shouldExclude (engine : RegexEngine) (e : Expression)
    (paragraph : String) : Except PyError Bool := do
  let pats ← e.known.mapM (fun src =>
    match engine.compile src with
    | some p => Except.ok p
    | none => Except.error (PyError.regexError src))
  Except.ok (pats.any (fun p => p paragraph))

/-- The inner `push(expression, lines)` closure of `split_text`: groups of
fewer than 2 lines are dropped; otherwise the lines are joined and
`expression.should_exclude(paragraph)` is evaluated — which is an
`AttributeError` when the owner is `None`. -/
def push (engine : RegexEngine) (owner : Option Expression)
    (lines : List String) (result : List (String × Bool)) :
    Except PyError (List (String × Bool)) :=
  if lines.length < 2 then Except.ok result
  else
    match owner with
    | none => Except.error PyError.noneTypeNoAttr
    | some e => do
      let b ← shouldExclude engine e (joinLines lines)
      Except.ok (result ++ [(joinLines lines, b)])

/-- The `for regexp in regex_data: if regexp.pattern.match(line): ... break`
scan: compile each boundary pattern in configured order on demand (the lazy
`pattern` property raises `re.error` for a bad source when first reached),
stop at the first Expression whose pattern matches at the start of the
line. -/
def scanExprs (engine : RegexEngine) (regexData : List Expression)
    (line : String) : Except PyError (Option Expression) :=
  match regexData with
  | [] => Except.ok none
  | e :: rest =>
    match engine.compile e.expression with
    | none => Except.error (PyError.regexError e.expression)
    | some p =>
      if p line then Except.ok (some e) else scanExprs engine rest line

/-- The mutable state of the `split_text` loop. -/
structure SplitState where
  result : List (String × Bool)
  currentGroup : List String
  currentRegexp : Option Expression
  matchCount : List (String × Nat)
deriving Repr

/-- One iteration of the `for line in file` loop of `split_text`. -/
def processLine (engine : RegexEngine) (regexData : List Expression)
    (st : SplitState) (rawLine : String) : Except PyError SplitState :=
  if stripNL rawLine = "" then Except.ok st
  else do
    match ← scanExprs engine regexData (stripNL rawLine) with
    | some e =>
      let result ←
        if st.currentGroup.length > 1 then
          push engine st.currentRegexp st.currentGroup st.result
        else Except.ok st.result
      Except.ok ⟨result, [stripNL rawLine], some e,
        bumpCount st.matchCount e.id⟩
    | none =>
      Except.ok { st with currentGroup := st.currentGroup ++ [stripNL rawLine] }

/-- The whole `for line in file` loop. -/
def runLines (engine : RegexEngine) (regexData : List Expression)
    (st : SplitState) : List String → Except PyError SplitState
  | [] => Except.ok st
  | l :: rest => do
    let st' ← processLine engine regexData st l
    runLines engine regexData st' rest

/-- `split_text(file, regex_data)`: returns `(result, match_count)`, or the
exception the Python function would raise. -/
def splitText (engine : RegexEngine) (file : List String)
    (regexData : List Expression) :
    Except PyError (List (String × Bool) × List (String × Nat)) := do
  let final ← runLines engine regexData ⟨[], [], none, []⟩ file
  let result ←
    if final.currentGroup.length > 1 ∧ final.currentRegexp.isSome then
      push engine final.currentRegexp final.currentGroup final.result
    else Except.ok final.result
  Except.ok (result, final.matchCount)

/-- The sort key of `report`: `counter[x.id]` (defaultdict lookup). -/
def countKey (counter : List (String × Nat)) (e : Expression) : Nat :=
  lookupCount counter e.id

/-- `sorted(expressions, key=lambda x: counter[x.id], reverse=True)`:
Python's sort is stable and here descending, which is exactly insertion
sort with the relation `fun a b => key b ≤ key a`. -/
def sortedByCountDesc (counter : List (String × Nat))
    (expressions : List Expression) : List Expression :=
  List.insertionSort (fun a b => countKey counter b ≤ countKey counter a)
    expressions

/-- One row of the report table: pattern source, description, count,
`count / total * 100` (exact rational in place of the printed float). -/
structure ReportRow where
  expression : String
  desc : String
  count : Nat
  percent : Rat
deriving DecidableEq, Repr

/-- The row `report` adds for Expression `e`. -/
def mkRow (counter : List (String × Nat)) (total : Nat) (e : Expression) :
    ReportRow :=
  ⟨e.expression, e.desc, countKey counter e,
    (countKey counter e : Rat) / (total : Rat) * 100⟩

/-- The data `report` computes: the table rows in display order, the
synthesized combined detector string, and the total match count. -/
structure ReportData where
  rows : List ReportRow
  finalExpression : String
  total : Nat
deriving DecidableEq, Repr

/-- `report(counter, expressions)`: sum the counter values, sort the
expressions descending by count (stable), emit one row per expression —
the unguarded `count / total` raises `ZeroDivisionError` at the first row
when `total == 0` — and synthesize
`"(" + "|".join(components) + ").*"`. -/
def report (counter : List (String × Nat)) (expressions : List Expression) :
    Except PyError ReportData := do
  let total := (counter.map Prod.snd).sum
  let sortedE := sortedByCountDesc counter expressions
  let rows ← sortedE.mapM (fun e =>
    if total = 0 then Except.error PyError.zeroDivision
    else Except.ok (mkRow counter total e))
  let finalExpression :=
    "(" ++ joinWith "|" (sortedE.map (fun e => e.expression)) ++ ").*"
  Except.ok ⟨rows, finalExpression, total⟩

/-- Model of `re.compile` restricted to the concrete pattern sources the
theorems below use: each start-anchored literal pattern gets the
`re.match` semantics it has in Python (match at the start of the string);
`"("` is syntactically invalid in Python's `re` and fails to compile.
Sources outside this table are not used by any theorem. -/
def demoCompile (src : String) : Option (String → Bool) :=
  if src = "^ERROR" then some (fun s => strStartsWithLit "ERROR" s)
  else if src = "^WARN" then some (fun s => strStartsWithLit "WARN" s)
  else if src = "^WARN: deprecated" then
    some (fun s => strStartsWithLit "WARN: deprecated" s)
  else if src = "^A" then some (fun s => strStartsWithLit "A" s)
  else none

/-- A concrete `RegexEngine` built from `demoCompile`. -/
def demoEngine : RegexEngine := ⟨demoCompile⟩

/-- The `{pattern: "^ERROR", known: []}` Expression of the literal
scenario. -/
def exprERROR : Expression := ⟨"error records", "^ERROR", []⟩

/-- The `{pattern: "^WARN", known: ["^WARN: deprecated"]}` Expression of
the literal scenario. -/
def exprWARN : Expression := ⟨"warn records", "^WARN", ["^WARN: deprecated"]⟩

/-- An Expression with the valid boundary pattern `"^A"`. -/
def exprA : Expression := ⟨"a records", "^A", []⟩

/-- An Expression whose boundary pattern `"("` does not compile. -/
def exprBad : Expression := ⟨"invalid", "(", []⟩

/-- The six input lines of the literal scenario. -/
def scenarioLines : List String :=
  ["ERROR start", "  detail1", "  detail2",
   "WARN: deprecated", "  detail3", "ERROR again"]

/-- Counter/expressions with a tied count used to exercise `report`. -/
def c8Counter : List (String × Nat) := [("^WARN", 2), ("^ERROR", 1), ("^A", 1)]

/-- Expression Set paired with `c8Counter`: ERROR and A tie at count 1. -/
def c8Exprs : List Expression := [exprERROR, exprWARN, exprA]

/-- The report data `report c8Counter c8Exprs` computes. -/
def c8Report : ReportData :=
  ⟨[exprWARN, exprERROR, exprA].map (mkRow c8Counter 4),
   "(^WARN|^ERROR|^A).*", 4⟩

/-- Counter with all counts equal, used to exercise the detector string. -/
def c9Counter : List (String × Nat) := [("^ERROR", 3), ("^WARN", 3)]

/-- Expression Set paired with `c9Counter`. -/
def c9Exprs : List Expression := [exprERROR, exprWARN]

/-- The report data `report c9Counter c9Exprs` computes. -/
def c9Report : ReportData :=
  ⟨[exprERROR, exprWARN].map (mkRow c9Counter 6), "(^ERROR|^WARN).*", 6⟩

theorem exceptBindOk {ε α β : Type} (a : α) (f : α → Except ε β) :
    (Except.ok a : Except ε α) >>= f = f a := rfl

theorem exceptBindErr {ε α β : Type} (err : ε) (f : α → Except ε β) :
    (Except.error err : Except ε α) >>= f = Except.error err := rfl

theorem exceptPureEq {ε α : Type} (a : α) :
    (pure a : Except ε α) = Except.ok a := rfl

theorem lookupCount_bumpCount_self (counts : List (String × Nat))
    (key : String) :
    lookupCount (bumpCount counts key) key = lookupCount counts key + 1 := by
  induction counts with
  | nil => simp [bumpCount, lookupCount]
  | cons kv rest ih =>
    obtain ⟨k, v⟩ := kv
    by_cases h : k = key
    · simp [bumpCount, lookupCount, h]
    · simp [bumpCount, lookupCount, h, ih]

theorem lookupCount_bumpCount_ne (counts : List (String × Nat))
    (key k : String) (hne : k ≠ key) :
    lookupCount (bumpCount counts key) k = lookupCount counts k := by
  induction counts with
  | nil => simp [bumpCount, lookupCount, Ne.symm hne]
  | cons kv rest ih =>
    obtain ⟨k', v⟩ := kv
    by_cases h : k' = key
    · subst h
      simp [bumpCount, lookupCount, Ne.symm hne]
    · by_cases h2 : k' = k
      · simp [bumpCount, lookupCount, h, h2, hne]
      · simp [bumpCount, lookupCount, h, h2, ih]

theorem hasKey_bumpCount (counts : List (String × Nat)) (key k : String)
    (h : hasKey (bumpCount counts key) k = true) :
    hasKey counts k = true ∨ k = key := by
  induction counts with
  | nil =>
    simp [bumpCount, hasKey] at h
    exact Or.inr h.symm
  | cons kv rest ih =>
    obtain ⟨k', v⟩ := kv
    by_cases hk : k' = key
    · subst hk
      simp [bumpCount, hasKey] at h ⊢
      rcases h with h | h
      · exact Or.inl (Or.inl h)
      · exact Or.inl (Or.inr h)
    · simp [bumpCount, hasKey, hk] at h ⊢
      rcases h with h | h
      · exact Or.inl (Or.inl h)
      · rcases ih (by simpa [hasKey] using h) with h2 | h2
        · exact Or.inl (Or.inr (by simpa [hasKey] using h2))
        · exact Or.inr h2

theorem scanExprs_mem (engine : RegexEngine) (regexData : List Expression)
    (line : String) (e : Expression)
    (h : scanExprs engine regexData line = Except.ok (some e)) :
    e ∈ regexData := by
  induction regexData with
  | nil => simp [scanExprs] at h
  | cons e' rest ih =>
    unfold scanExprs at h
    cases hc : engine.compile e'.expression with
    | none =>
      simp only [hc] at h
      exact Except.noConfusion h
    | some p =>
      simp only [hc] at h
      by_cases hp : p line = true
      · rw [if_pos hp] at h
        simp only [Except.ok.injEq, Option.some.injEq] at h
        exact h ▸ List.mem_cons_self e' rest
      · rw [if_neg hp] at h
        exact List.mem_cons_of_mem e' (ih h)

theorem scanExprs_none (engine : RegexEngine) (regexData : List Expression)
    (line : String)
    (h : ∀ e ∈ regexData,
      ∃ p, engine.compile e.expression = some p ∧ p line = false) :
    scanExprs engine regexData line = Except.ok none := by
  induction regexData with
  | nil => rfl
  | cons e' rest ih =>
    obtain ⟨p, hc, hf⟩ := h e' (List.mem_cons_self e' rest)
    unfold scanExprs
    simp only [hc, hf]
    exact ih (fun e he => h e (List.mem_cons_of_mem e' he))

theorem scanExprs_first (engine : RegexEngine) (pre : List Expression)
    (e : Expression) (post : List Expression) (line : String)
    (p : String → Bool)
    (hpre : ∀ e' ∈ pre,
      ∃ q, engine.compile e'.expression = some q ∧ q line = false)
    (hc : engine.compile e.expression = some p) (hm : p line = true) :
    scanExprs engine (pre ++ e :: post) line = Except.ok (some e) := by
  induction pre with
  | nil =>
    rw [List.nil_append]
    unfold scanExprs
    simp only [hc, hm, if_true]
  | cons e' rest ih =>
    obtain ⟨q, hcq, hf⟩ := hpre e' (List.mem_cons_self e' rest)
    rw [List.cons_append]
    unfold scanExprs
    simp only [hcq, hf]
    exact ih (fun x hx => hpre x (List.mem_cons_of_mem e' hx))

theorem scanExprs_reachesError (engine : RegexEngine) (pre : List Expression)
    (bad : Expression) (post : List Expression) (line : String)
    (hpre : ∀ e' ∈ pre,
      ∃ q, engine.compile e'.expression = some q ∧ q line = false)
    (hbad : engine.compile bad.expression = none) :
    scanExprs engine (pre ++ bad :: post) line
      = Except.error (PyError.regexError bad.expression) := by
  induction pre with
  | nil =>
    rw [List.nil_append]
    unfold scanExprs
    simp only [hbad]
  | cons e' rest ih =>
    obtain ⟨q, hcq, hf⟩ := hpre e' (List.mem_cons_self e' rest)
    rw [List.cons_append]
    unfold scanExprs
    simp only [hcq, hf]
    exact ih (fun x hx => hpre x (List.mem_cons_of_mem e' hx))

theorem processLine_blank (engine : RegexEngine) (regexData : List Expression)
    (st : SplitState) (raw : String) (hb : stripNL raw = "") :
    processLine engine regexData st raw = Except.ok st := by
  unfold processLine
  rw [if_pos hb]

theorem processLine_scanError (engine : RegexEngine)
    (regexData : List Expression) (st : SplitState) (raw : String)
    (err : PyError) (hb : stripNL raw ≠ "")
    (hs : scanExprs engine regexData (stripNL raw) = Except.error err) :
    processLine engine regexData st raw = Except.error err := by
  unfold processLine
  rw [if_neg hb, hs, exceptBindErr]

theorem processLine_noMatch (engine : RegexEngine)
    (regexData : List Expression) (st : SplitState) (raw : String)
    (hb : stripNL raw ≠ "")
    (hs : scanExprs engine regexData (stripNL raw) = Except.ok none) :
    processLine engine regexData st raw
      = Except.ok { st with currentGroup := st.currentGroup ++ [stripNL raw] } := by
  unfold processLine
  rw [if_neg hb, hs, exceptBindOk]

theorem processLine_match_small (engine : RegexEngine)
    (regexData : List Expression) (st : SplitState) (raw : String)
    (e : Expression) (hb : stripNL raw ≠ "")
    (hs : scanExprs engine regexData (stripNL raw) = Except.ok (some e))
    (hg : ¬st.currentGroup.length > 1) :
    processLine engine regexData st raw
      = Except.ok ⟨st.result, [stripNL raw], some e,
          bumpCount st.matchCount e.id⟩ := by
  unfold processLine
  rw [if_neg hb, hs, exceptBindOk]
  simp only [if_neg hg]
  rfl

theorem processLine_match_big (engine : RegexEngine)
    (regexData : List Expression) (st : SplitState) (raw : String)
    (e : Expression) (hb : stripNL raw ≠ "")
    (hs : scanExprs engine regexData (stripNL raw) = Except.ok (some e))
    (hg : st.currentGroup.length > 1) :
    processLine engine regexData st raw
      = (push engine st.currentRegexp st.currentGroup st.result >>=
          fun result => Except.ok ⟨result, [stripNL raw], some e,
            bumpCount st.matchCount e.id⟩) := by
  unfold processLine
  rw [if_neg hb, hs, exceptBindOk]
  simp only [if_pos hg]

theorem push_ok_mem (engine : RegexEngine) (owner : Option Expression)
    (lines : List String) (result result' : List (String × Bool))
    (h : push engine owner lines result = Except.ok result') :
    ∀ q ∈ result', q ∈ result ∨ (2 ≤ lines.length ∧ q.1 = joinLines lines) := by
  unfold push at h
  by_cases hlen : lines.length < 2
  · rw [if_pos hlen] at h
    injection h with h
    subst h
    exact fun q hq => Or.inl hq
  · rw [if_neg hlen] at h
    cases owner with
    | none => exact Except.noConfusion h
    | some e =>
      dsimp only at h
      cases hse : shouldExclude engine e (joinLines lines) with
      | error err =>
        rw [hse, exceptBindErr] at h
        exact Except.noConfusion h
      | ok b =>
        rw [hse, exceptBindOk] at h
        injection h with h
        subst h
        intro q hq
        rcases List.mem_append.mp hq with hq | hq
        · exact Or.inl hq
        · simp only [List.mem_singleton] at hq
          subst hq
          exact Or.inr ⟨Nat.le_of_not_lt hlen, rfl⟩

theorem processLine_paragraphs (engine : RegexEngine)
    (regexData : List Expression) (st st' : SplitState) (raw : String)
    (h : processLine engine regexData st raw = Except.ok st')
    (hinv : ∀ q ∈ st.result, ∃ ls : List String,
      2 ≤ ls.length ∧ q.1 = joinLines ls) :
    ∀ q ∈ st'.result, ∃ ls : List String,
      2 ≤ ls.length ∧ q.1 = joinLines ls := by
  by_cases hb : stripNL raw = ""
  · rw [processLine_blank engine regexData st raw hb] at h
    injection h with h
    subst h
    exact hinv
  · cases hs : scanExprs engine regexData (stripNL raw) with
    | error err =>
      rw [processLine_scanError engine regexData st raw err hb hs] at h
      exact Except.noConfusion h
    | ok x =>
      cases x with
      | none =>
        rw [processLine_noMatch engine regexData st raw hb hs] at h
        injection h with h
        subst h
        exact hinv
      | some e =>
        by_cases hg : st.currentGroup.length > 1
        · rw [processLine_match_big engine regexData st raw e hb hs hg] at h
          cases hpu : push engine st.currentRegexp st.currentGroup
              st.result with
          | error err =>
            rw [hpu, exceptBindErr] at h
            exact Except.noConfusion h
          | ok res =>
            rw [hpu, exceptBindOk] at h
            injection h with h
            subst h
            intro q hq
            rcases push_ok_mem engine st.currentRegexp st.currentGroup
                st.result res hpu q hq with hq' | ⟨hlen, hjoin⟩
            · exact hinv q hq'
            · exact ⟨st.currentGroup, hlen, hjoin⟩
        · rw [processLine_match_small engine regexData st raw e hb hs hg] at h
          injection h with h
          subst h
          exact hinv

theorem runLines_paragraphs (engine : RegexEngine)
    (regexData : List Expression) (lines : List String) :
    ∀ (st st' : SplitState),
      runLines engine regexData st lines = Except.ok st' →
      (∀ q ∈ st.result, ∃ ls : List String,
        2 ≤ ls.length ∧ q.1 = joinLines ls) →
      ∀ q ∈ st'.result, ∃ ls : List String,
        2 ≤ ls.length ∧ q.1 = joinLines ls := by
  induction lines with
  | nil =>
    intro st st' h hinv
    injection h with h
    subst h
    exact hinv
  | cons l rest ih =>
    intro st st' h hinv
    unfold runLines at h
    cases hp : processLine engine regexData st l with
    | error err =>
      rw [hp, exceptBindErr] at h
      exact Except.noConfusion h
    | ok st1 =>
      rw [hp, exceptBindOk] at h
      exact ih st1 st' h
        (processLine_paragraphs engine regexData st st1 l hp hinv)

theorem processLine_counter (engine : RegexEngine)
    (regexData : List Expression) (st st' : SplitState) (raw : String)
    (h : processLine engine regexData st raw = Except.ok st')
    (hinv : ∀ k, hasKey st.matchCount k = true →
      1 ≤ lookupCount st.matchCount k
      ∧ ∃ e2, e2 ∈ regexData ∧ Expression.id e2 = k) :
    ∀ k, hasKey st'.matchCount k = true →
      1 ≤ lookupCount st'.matchCount k
      ∧ ∃ e2, e2 ∈ regexData ∧ Expression.id e2 = k := by
  by_cases hb : stripNL raw = ""
  · rw [processLine_blank engine regexData st raw hb] at h
    injection h with h
    subst h
    exact hinv
  · cases hs : scanExprs engine regexData (stripNL raw) with
    | error err =>
      rw [processLine_scanError engine regexData st raw err hb hs] at h
      exact Except.noConfusion h
    | ok x =>
      cases x with
      | none =>
        rw [processLine_noMatch engine regexData st raw hb hs] at h
        injection h with h
        subst h
        exact hinv
      | some e =>
        have hmem : e ∈ regexData := scanExprs_mem engine regexData _ e hs
        have key : ∀ k, hasKey (bumpCount st.matchCount e.id) k = true →
            1 ≤ lookupCount (bumpCount st.matchCount e.id) k
            ∧ ∃ e2, e2 ∈ regexData ∧ Expression.id e2 = k := by
          intro k hk
          by_cases hke : k = Expression.id e
          · subst hke
            rw [lookupCount_bumpCount_self]
            exact ⟨Nat.le_add_left 1 _, e, hmem, rfl⟩
          · rw [lookupCount_bumpCount_ne st.matchCount (Expression.id e) k hke]
            rcases hasKey_bumpCount st.matchCount (Expression.id e) k hk with
              hk' | hk'
            · exact hinv k hk'
            · exact absurd hk' hke
        by_cases hg : st.currentGroup.length > 1
        · rw [processLine_match_big engine regexData st raw e hb hs hg] at h
          cases hpu : push engine st.currentRegexp st.currentGroup
              st.result with
          | error err =>
            rw [hpu, exceptBindErr] at h
            exact Except.noConfusion h
          | ok res =>
            rw [hpu, exceptBindOk] at h
            injection h with h
            subst h
            exact key
        · rw [processLine_match_small engine regexData st raw e hb hs hg] at h
          injection h with h
          subst h
          exact key

theorem runLines_counter (engine : RegexEngine)
    (regexData : List Expression) (lines : List String) :
    ∀ (st st' : SplitState),
      runLines engine regexData st lines = Except.ok st' →
      (∀ k, hasKey st.matchCount k = true →
        1 ≤ lookupCount st.matchCount k
        ∧ ∃ e2, e2 ∈ regexData ∧ Expression.id e2 = k) →
      ∀ k, hasKey st'.matchCount k = true →
        1 ≤ lookupCount st'.matchCount k
        ∧ ∃ e2, e2 ∈ regexData ∧ Expression.id e2 = k := by
  induction lines with
  | nil =>
    intro st st' h hinv
    injection h with h
    subst h
    exact hinv
  | cons l rest ih =>
    intro st st' h hinv
    unfold runLines at h
    cases hp : processLine engine regexData st l with
    | error err =>
      rw [hp, exceptBindErr] at h
      exact Except.noConfusion h
    | ok st1 =>
      rw [hp, exceptBindOk] at h
      exact ih st1 st' h
        (processLine_counter engine regexData st st1 l hp hinv)

theorem runLines_noMatch (engine : RegexEngine)
    (regexData : List Expression) (lines : List String)
    (h : ∀ l ∈ lines, stripNL l ≠ "" →
      scanExprs engine regexData (stripNL l) = Except.ok none) :
    ∀ g : List String, ∃ g' : List String,
      runLines engine regexData ⟨[], g, none, []⟩ lines
        = Except.ok ⟨[], g', none, []⟩ := by
  induction lines with
  | nil => exact fun g => ⟨g, rfl⟩
  | cons l rest ih =>
    intro g
    by_cases hb : stripNL l = ""
    · obtain ⟨g', hg'⟩ := ih (fun x hx => h x (List.mem_cons_of_mem l hx)) g
      refine ⟨g', ?_⟩
      unfold runLines
      rw [processLine_blank engine regexData _ l hb, exceptBindOk]
      exact hg'
    · obtain ⟨g', hg'⟩ := ih (fun x hx => h x (List.mem_cons_of_mem l hx))
        (g ++ [stripNL l])
      refine ⟨g', ?_⟩
      unfold runLines
      rw [processLine_noMatch engine regexData _ l hb
        (h l (List.mem_cons_self l rest) hb), exceptBindOk]
      exact hg'

/-- Claim C1 (code bug): with two unowned lines accumulated before the first
boundary match, `split_text` does not resolve the unowned group by an
explicit policy — closing it out calls `None.should_exclude` and raises
`AttributeError`.  Evaluation of the code at the failing input
`["a", "b", "ERROR x"]` with the single Expression `^ERROR`. -/
theorem unownedGroupCloseoutRaises :
    splitText demoEngine ["a", "b", "ERROR x"] [exprERROR]
      = Except.error PyError.noneTypeNoAttr := rfl

/-- Claim C2 (code bug): with a non-empty Expression Set and `total == 0`,
`report` does not produce a distinct "no boundary matches observed" outcome:
the unguarded `count / total * 100` raises `ZeroDivisionError`.  Evaluation
of the code at the failing input (empty counter, one Expression). -/
theorem reportZeroTotalRaises :
    report [] [exprERROR] = Except.error PyError.zeroDivision := rfl

/-- Claim C3 counterexample: an Expression Set containing the syntactically
invalid boundary pattern `"("` does not make the run fail at load time:
both input lines match the earlier valid pattern `^A`, the scan stops
before the invalid pattern, and `split_text` completes successfully with
the invalid pattern never compiled — no `ConfigError` is ever raised. -/
theorem invalidPatternNotRaisedAtLoad :
    splitText demoEngine ["A one", "A two"] [exprA, exprBad]
      = Except.ok ([], [("^A", 2)]) := rfl

/-- Claim C3 as amended: boundary-pattern compilation is lazy: an invalid
boundary pattern raises its compilation error during segmentation, at the
first line whose scan reaches that pattern (here the very first line, with
every earlier Expression compiling fine and not matching), not at load
time. -/
theorem invalidPatternRaisedLazily (engine : RegexEngine)
    (pre : List Expression) (bad : Expression) (post : List Expression)
    (l : String) (rest : List String) (hb : stripNL l ≠ "")
    (hpre : ∀ e ∈ pre,
      ∃ q, engine.compile e.expression = some q ∧ q (stripNL l) = false)
    (hbad : engine.compile bad.expression = none) :
    splitText engine (l :: rest) (pre ++ bad :: post)
      = Except.error (PyError.regexError bad.expression) := by
  have hs := scanExprs_reachesError engine pre bad post (stripNL l) hpre hbad
  have hp := processLine_scanError engine (pre ++ bad :: post)
    ⟨[], [], none, []⟩ l _ hb hs
  unfold splitText
  unfold runLines
  rw [hp, exceptBindErr, exceptBindErr]

/-- Witness for `invalidPatternRaisedLazily` at a concrete input: one line
that the valid pattern `^A` does not match, scanned on to the invalid
pattern `"("`. -/
theorem invalidPatternRaisedLazilyWitness :
    splitText demoEngine ["B one"] [exprA, exprBad]
      = Except.error (PyError.regexError "(") :=
  invalidPatternRaisedLazily demoEngine [exprA] exprBad [] "B one" []
    (by decide)
    (by
      intro e he
      rw [List.mem_singleton] at he
      subst he
      exact ⟨fun s => strStartsWithLit "A" s, rfl, by decide⟩)
    rfl

/-- Claim C4: the literal scenario.  On the six scenario lines with
Expression Set `[^ERROR (known: []), ^WARN (known: [^WARN: deprecated])]`,
`split_text` returns exactly the two expected Paragraphs (the second
excluded) and counts `{ERROR_id: 2, WARN_id: 1}`; the trailing lone
`"ERROR again"` group yields no third Paragraph. -/
theorem literalScenarioResult :
    splitText demoEngine scenarioLines [exprERROR, exprWARN]
      = Except.ok
          ([("ERROR start\n  detail1\n  detail2", false),
            ("WARN: deprecated\n  detail3", true)],
           [(Expression.id exprERROR, 2), (Expression.id exprWARN, 1)]) := rfl

/-- Claim C5 counterexample: the counter returned by `split_text` is a
`defaultdict` created empty, not initialized with every configured id: with
one Expression `^A` and no matching line, the returned counter is `[]` and
holds no entry for the configured Expression's id. -/
theorem unmatchedExpressionAbsentFromCounter :
    splitText demoEngine ["b1", "b2"] [exprA] = Except.ok ([], [])
      ∧ hasKey [] (Expression.id exprA) = false := ⟨rfl, rfl⟩

/-- Claim C5 as amended: the returned counter holds an entry exactly for the
ids incremented during the run: every key present has a count of at least 1
and is the id of some configured Expression (ids that never matched are
absent, and `lookupCount` reads them as the default 0). -/
theorem counterEntriesArePositiveMatchedIds (engine : RegexEngine)
    (file : List String) (regexData : List Expression)
    (res : List (String × Bool)) (counts : List (String × Nat))
    (h : splitText engine file regexData = Except.ok (res, counts)) :
    ∀ k, hasKey counts k = true →
      1 ≤ lookupCount counts k
      ∧ ∃ e, e ∈ regexData ∧ Expression.id e = k := by
  unfold splitText at h
  cases hr : runLines engine regexData ⟨[], [], none, []⟩ file with
  | error err =>
    rw [hr, exceptBindErr] at h
    exact Except.noConfusion h
  | ok final =>
    rw [hr, exceptBindOk] at h
    dsimp only at h
    have hinv := runLines_counter engine regexData file ⟨[], [], none, []⟩
      final hr (by intro k hk; simp [hasKey] at hk)
    by_cases hc : final.currentGroup.length > 1 ∧ final.currentRegexp.isSome
    · rw [if_pos hc] at h
      cases hpu : push engine final.currentRegexp final.currentGroup
          final.result with
      | error err =>
        rw [hpu, exceptBindErr] at h
        exact Except.noConfusion h
      | ok r =>
        rw [hpu, exceptBindOk] at h
        injection h with h
        injection h with h1 h2
        subst h2
        exact hinv
    · rw [if_neg hc, exceptBindOk] at h
      injection h with h
      injection h with h1 h2
      subst h2
      exact hinv

/-- Witness for `counterEntriesArePositiveMatchedIds`: a run with one
matched line; the single counter entry has count 1 and belongs to the
configured Expression. -/
theorem counterEntriesArePositiveMatchedIdsWitness :
    1 ≤ lookupCount [("^ERROR", 1)] "^ERROR"
    ∧ ∃ e, e ∈ [exprERROR] ∧ Expression.id e = "^ERROR" :=
  counterEntriesArePositiveMatchedIds demoEngine ["ERROR x"] [exprERROR]
    [] [("^ERROR", 1)] rfl "^ERROR" rfl

/-- Claim C6: every Paragraph `split_text` emits is the join of a group of
at least 2 lines; no Paragraph is ever emitted for a group of size 0
or 1. -/
theorem emittedParagraphsHaveAtLeastTwoLines (engine : RegexEngine)
    (file : List String) (regexData : List Expression)
    (res : List (String × Bool)) (counts : List (String × Nat))
    (h : splitText engine file regexData = Except.ok (res, counts)) :
    ∀ q ∈ res, ∃ ls : List String, 2 ≤ ls.length ∧ q.1 = joinLines ls := by
  unfold splitText at h
  cases hr : runLines engine regexData ⟨[], [], none, []⟩ file with
  | error err =>
    rw [hr, exceptBindErr] at h
    exact Except.noConfusion h
  | ok final =>
    rw [hr, exceptBindOk] at h
    dsimp only at h
    have hinv := runLines_paragraphs engine regexData file ⟨[], [], none, []⟩
      final hr (by intro q hq; exact absurd hq (List.not_mem_nil q))
    by_cases hc : final.currentGroup.length > 1 ∧ final.currentRegexp.isSome
    · rw [if_pos hc] at h
      cases hpu : push engine final.currentRegexp final.currentGroup
          final.result with
      | error err =>
        rw [hpu, exceptBindErr] at h
        exact Except.noConfusion h
      | ok r =>
        rw [hpu, exceptBindOk] at h
        injection h with h
        injection h with h1 h2
        subst h1
        intro q hq
        rcases push_ok_mem engine final.currentRegexp final.currentGroup
            final.result r hpu q hq with hq' | ⟨hlen, hjoin⟩
        · exact hinv q hq'
        · exact ⟨final.currentGroup, hlen, hjoin⟩
    · rw [if_neg hc, exceptBindOk] at h
      injection h with h
      injection h with h1 h2
      subst h1
      exact hinv

/-- Witness for `emittedParagraphsHaveAtLeastTwoLines`: the Paragraph
emitted for `["ERROR a", "x"]` is the join of a 2-line group. -/
theorem emittedParagraphsHaveAtLeastTwoLinesWitness :
    ∃ ls : List String, 2 ≤ ls.length ∧ ("ERROR a\nx", false).1 = joinLines ls :=
  emittedParagraphsHaveAtLeastTwoLines demoEngine ["ERROR a", "x", "ERROR b"]
    [exprERROR] [("ERROR a\nx", false)] [("^ERROR", 2)] rfl
    ("ERROR a\nx", false) (List.mem_singleton.mpr rfl)

/-- Claim C7: boundary matching is first-match-wins.  If the scan prefix
`pre` compiles and fails to match the line while Expression `e` matches it,
then processing the line is independent of everything after `e` in the
Expression Set, `e` becomes the owner of the new group, and `e`'s id is the
only counter entry incremented. -/
theorem firstMatchWins (engine : RegexEngine) (pre post post' : List Expression)
    (e : Expression) (p : String → Bool) (st : SplitState) (raw : String)
    (hb : stripNL raw ≠ "") (hc : engine.compile e.expression = some p)
    (hm : p (stripNL raw) = true)
    (hpre : ∀ e' ∈ pre,
      ∃ q, engine.compile e'.expression = some q ∧ q (stripNL raw) = false) :
    processLine engine (pre ++ e :: post) st raw
      = processLine engine (pre ++ e :: post') st raw
    ∧ ∀ st', processLine engine (pre ++ e :: post) st raw = Except.ok st' →
        st'.currentRegexp = some e
        ∧ lookupCount st'.matchCount (Expression.id e)
            = lookupCount st.matchCount (Expression.id e) + 1
        ∧ ∀ k, k ≠ Expression.id e →
            lookupCount st'.matchCount k = lookupCount st.matchCount k := by
  have hs : scanExprs engine (pre ++ e :: post) (stripNL raw)
      = Except.ok (some e) := scanExprs_first engine pre e post _ p hpre hc hm
  have hs' : scanExprs engine (pre ++ e :: post') (stripNL raw)
      = Except.ok (some e) := scanExprs_first engine pre e post' _ p hpre hc hm
  constructor
  · by_cases hg : st.currentGroup.length > 1
    · rw [processLine_match_big engine _ st raw e hb hs hg,
        processLine_match_big engine _ st raw e hb hs' hg]
    · rw [processLine_match_small engine _ st raw e hb hs hg,
        processLine_match_small engine _ st raw e hb hs' hg]
  · intro st' h
    by_cases hg : st.currentGroup.length > 1
    · rw [processLine_match_big engine _ st raw e hb hs hg] at h
      cases hpu : push engine st.currentRegexp st.currentGroup st.result with
      | error err =>
        rw [hpu, exceptBindErr] at h
        exact Except.noConfusion h
      | ok res =>
        rw [hpu, exceptBindOk] at h
        injection h with h
        subst h
        exact ⟨rfl, lookupCount_bumpCount_self st.matchCount (Expression.id e),
          fun k hk => lookupCount_bumpCount_ne st.matchCount (Expression.id e) k hk⟩
    · rw [processLine_match_small engine _ st raw e hb hs hg] at h
      injection h with h
      subst h
      exact ⟨rfl, lookupCount_bumpCount_self st.matchCount (Expression.id e),
        fun k hk => lookupCount_bumpCount_ne st.matchCount (Expression.id e) k hk⟩

/-- Witness for `firstMatchWins`: the line `"ERROR x"` is matched by
`^ERROR` after `^WARN` fails; appending the invalid Expression after the
winner does not change the outcome. -/
theorem firstMatchWinsWitness :
    processLine demoEngine [exprWARN, exprERROR, exprBad]
        ⟨[], [], none, []⟩ "ERROR x"
      = processLine demoEngine [exprWARN, exprERROR]
          ⟨[], [], none, []⟩ "ERROR x" :=
  (firstMatchWins demoEngine [exprWARN] [exprBad] [] exprERROR
    (fun s => strStartsWithLit "ERROR" s) ⟨[], [], none, []⟩ "ERROR x"
    (by decide) rfl (by decide)
    (by
      intro e' he'
      rw [List.mem_singleton] at he'
      subst he'
      exact ⟨fun s => strStartsWithLit "WARN" s, rfl, by decide⟩)).1

/-- Claim C10: when no non-blank line matches any configured boundary
pattern (all of which compile), `split_text` returns an empty Paragraph
list and an empty counter; in particular a trailing unowned group of 2 or
more lines is silently discarded, because the end-of-input close-out
requires `current_regexp` to be set. -/
theorem noMatchesYieldsEmptyOutput (engine : RegexEngine)
    (file : List String) (regexData : List Expression)
    (h : ∀ e ∈ regexData, ∃ p, engine.compile e.expression = some p ∧
      ∀ l ∈ file, stripNL l ≠ "" → p (stripNL l) = false) :
    splitText engine file regexData = Except.ok ([], []) := by
  have hscan : ∀ l ∈ file, stripNL l ≠ "" →
      scanExprs engine regexData (stripNL l) = Except.ok none := by
    intro l hl hb
    exact scanExprs_none engine regexData (stripNL l)
      (fun e he => (h e he).imp (fun p hp => ⟨hp.1, hp.2 l hl hb⟩))
  obtain ⟨g', hg'⟩ := runLines_noMatch engine regexData file hscan []
  unfold splitText
  rw [hg', exceptBindOk]
  rw [if_neg (by simp)]
  rfl

/-- Witness for `noMatchesYieldsEmptyOutput`: two lines that `^A` does not
match produce an empty result and an empty counter. -/
theorem noMatchesYieldsEmptyOutputWitness :
    splitText demoEngine ["no", "match"] [exprA] = Except.ok ([], []) :=
  noMatchesYieldsEmptyOutput demoEngine ["no", "match"] [exprA]
    (by
      intro e he
      rw [List.mem_singleton] at he
      subst he
      refine ⟨fun s => strStartsWithLit "A" s, rfl, ?_⟩
      intro l hl hb
      simp only [List.mem_cons, List.mem_singleton, List.not_mem_nil,
        or_false] at hl
      rcases hl with rfl | rfl <;> decide)

theorem sortedByCountDesc_sorted (counter : List (String × Nat))
    (exprs : List Expression) :
    List.Pairwise (fun a b => countKey counter b ≤ countKey counter a)
      (sortedByCountDesc counter exprs) := by
  haveI : IsTotal Expression
      (fun a b => countKey counter b ≤ countKey counter a) :=
    ⟨fun a b => Nat.le_total (countKey counter b) (countKey counter a)⟩
  haveI : IsTrans Expression
      (fun a b => countKey counter b ≤ countKey counter a) :=
    ⟨fun a b c hab hbc => Nat.le_trans hbc hab⟩
  unfold sortedByCountDesc
  exact List.sorted_insertionSort _ exprs

theorem sortedByCountDesc_perm (counter : List (String × Nat))
    (exprs : List Expression) :
    (sortedByCountDesc counter exprs).Perm exprs := by
  unfold sortedByCountDesc
  exact List.perm_insertionSort _ exprs

theorem sortedByCountDesc_filter (counter : List (String × Nat))
    (exprs : List Expression) (c : Nat) :
    (sortedByCountDesc counter exprs).filter
        (fun e => countKey counter e == c)
      = exprs.filter (fun e => countKey counter e == c) := by
  have hpw : (exprs.filter (fun e => countKey counter e == c)).Pairwise
      (fun a b => countKey counter b ≤ countKey counter a) := by
    rw [List.pairwise_iff_forall_sublist]
    intro a b hs
    have ha : a ∈ exprs.filter (fun e => countKey counter e == c) :=
      hs.subset (by simp)
    have hb : b ∈ exprs.filter (fun e => countKey counter e == c) :=
      hs.subset (by simp)
    have ha' := (List.mem_filter.mp ha).2
    have hb' := (List.mem_filter.mp hb).2
    rw [beq_iff_eq] at ha' hb'
    rw [ha', hb']
  unfold sortedByCountDesc
  have h1 : List.Sublist (exprs.filter (fun e => countKey counter e == c))
      exprs := List.filter_sublist exprs
  have h2 := List.sublist_insertionSort hpw h1
  have h3 := h2.filter (fun e => countKey counter e == c)
  rw [List.filter_filter] at h3
  simp only [Bool.and_self] at h3
  have h4 := (List.perm_insertionSort
    (fun a b => countKey counter b ≤ countKey counter a) exprs).filter
    (fun e => countKey counter e == c)
  exact (h3.eq_of_length h4.length_eq.symm).symm

theorem mapM_mkRow_ok (counter : List (String × Nat)) (total : Nat)
    (h : total ≠ 0) (l : List Expression) :
    l.mapM (fun e => if total = 0 then Except.error PyError.zeroDivision
      else Except.ok (mkRow counter total e))
      = Except.ok (l.map (mkRow counter total)) := by
  induction l with
  | nil => rfl
  | cons e rest ih =>
    rw [List.mapM_cons, ih]
    simp only [if_neg h, exceptBindOk, exceptPureEq, List.map_cons]

theorem mapM_mkRow_zeroErr (counter : List (String × Nat)) (e : Expression)
    (rest : List Expression) :
    (e :: rest).mapM (fun x => if (0 : Nat) = 0 then
        Except.error PyError.zeroDivision
      else Except.ok (mkRow counter 0 x))
      = (Except.error PyError.zeroDivision : Except PyError (List ReportRow)) := rfl

/-- Claim C8: in the computed report, the rows are ordered descending by
count, and the order is stable: for every count value `c`, the rows with
count `c` are exactly the configured Expressions with count `c`, in their
original configured relative order. -/
theorem reportRowsSortedDescendingStable (counter : List (String × Nat))
    (exprs : List Expression) (rd : ReportData)
    (h : report counter exprs = Except.ok rd) :
    List.Pairwise (fun r1 r2 => r2.count ≤ r1.count) rd.rows
    ∧ ∀ c : Nat, rd.rows.filter (fun r => r.count == c)
        = (exprs.filter (fun e => countKey counter e == c)).map
            (mkRow counter rd.total) := by
  unfold report at h
  dsimp only at h
  by_cases htot : (counter.map Prod.snd).sum = 0
  · cases hE : sortedByCountDesc counter exprs with
    | cons e rest =>
      rw [hE, htot, mapM_mkRow_zeroErr, exceptBindErr] at h
      exact Except.noConfusion h
    | nil =>
      rw [hE] at h
      simp only [List.mapM_nil, exceptPureEq, exceptBindOk] at h
      injection h with h
      subst h
      have hnil : exprs = [] := by
        have hp := sortedByCountDesc_perm counter exprs
        rw [hE] at hp
        exact (hp.symm).eq_nil
      subst hnil
      exact ⟨List.Pairwise.nil, fun c => rfl⟩
  · rw [mapM_mkRow_ok counter _ htot, exceptBindOk] at h
    injection h with h
    subst h
    dsimp only
    constructor
    · rw [List.pairwise_map]
      exact sortedByCountDesc_sorted counter exprs
    · intro c
      rw [List.filter_map]
      have hfun : ((fun r => r.count == c) ∘
          mkRow counter ((counter.map Prod.snd).sum))
          = (fun e => countKey counter e == c) := rfl
      rw [hfun, sortedByCountDesc_filter]

/-- Witness for `reportRowsSortedDescendingStable`: a counter with a tied
count; the computed rows are descending (WARN 2, ERROR 1, A 1) with the
tie in configured order. -/
theorem reportRowsSortedDescendingStableWitness :
    report c8Counter c8Exprs = Except.ok c8Report
    ∧ List.Pairwise (fun r1 r2 => r2.count ≤ r1.count) c8Report.rows :=
  ⟨rfl, (reportRowsSortedDescendingStable c8Counter c8Exprs c8Report rfl).1⟩

/-- Claim C9: the synthesized combined detector equals the pattern sources
in descending-by-count order (a stable permutation of the configured set,
as the accompanying conjuncts state), joined with `|`, wrapped in one
parenthesized group, and suffixed with `.*`. -/
theorem synthesizedDetectorForm (counter : List (String × Nat))
    (exprs : List Expression) (rd : ReportData)
    (h : report counter exprs = Except.ok rd) :
    rd.finalExpression = "(" ++ joinWith "|"
        ((sortedByCountDesc counter exprs).map (fun e => e.expression))
        ++ ").*"
    ∧ (sortedByCountDesc counter exprs).Perm exprs
    ∧ List.Pairwise (fun a b => countKey counter b ≤ countKey counter a)
        (sortedByCountDesc counter exprs)
    ∧ ∀ c : Nat, (sortedByCountDesc counter exprs).filter
          (fun e => countKey counter e == c)
        = exprs.filter (fun e => countKey counter e == c) := by
  refine ⟨?_, sortedByCountDesc_perm counter exprs,
    sortedByCountDesc_sorted counter exprs,
    fun c => sortedByCountDesc_filter counter exprs c⟩
  unfold report at h
  dsimp only at h
  by_cases htot : (counter.map Prod.snd).sum = 0
  · cases hE : sortedByCountDesc counter exprs with
    | cons e rest =>
      rw [hE, htot, mapM_mkRow_zeroErr, exceptBindErr] at h
      exact Except.noConfusion h
    | nil =>
      rw [hE] at h
      simp only [List.mapM_nil, exceptPureEq, exceptBindOk] at h
      injection h with h
      subst h
      rfl
  · rw [mapM_mkRow_ok counter _ htot, exceptBindOk] at h
    injection h with h
    subst h
    rfl

/-- Witness for `synthesizedDetectorForm`: with equal counts the detector
keeps the configured order: `(^ERROR|^WARN).*`. -/
theorem synthesizedDetectorFormWitness :
    c9Report.finalExpression
      = "(" ++ joinWith "|"
          ((sortedByCountDesc c9Counter c9Exprs).map (fun e => e.expression))
          ++ ").*" :=
  (synthesizedDetectorForm c9Counter c9Exprs c9Report rfl).1
